import Mathlib

/-!
Verification of the photos-organizer date-resolution and categorization core
(`src/app.py`) against its natural-language specification.

The embedding follows the Python source closely:

* `datetime` values become the `Date` structure; `datetime.strptime` for the
  three fixed formats used by the program (`%Y%m%d`, `%Y-%m-%d` / `%Y_%m_%d`,
  `%Y:%m:%d %H:%M:%S`) is modelled by `strptimeYmd`, `strptimeSep` and
  `strptimeExif`, reproducing CPython `_strptime` field regexes
  (`%Y` is exactly four digits, `%m` is `1[0-2]|0[1-9]|[1-9]`, etc.) and the
  `datetime` constructor's range checks.  For these formats, the regex engine's
  greedy alternation never needs cross-field backtracking (every multi-digit
  alternative ends in a digit while every literal separator is a non-digit),
  so a first-match-wins transcription is exact.
* `re.search` for the fixed-shape patterns of `extract_from_filename` is
  modelled by `reSearch` (leftmost match of a rigid token sequence).
* Reads that go through external metadata libraries (`pillow_heif`, `exif`)
  are modelled by the outcome the library would produce for the file:
  either the read raises (`RResult.raised`) or it yields the container's
  content (tag map / attribute map plus the `has_exif` flag).  A non-string
  tag value raises `TypeError`, which the source catches exactly like a
  `ValueError` parse failure, so tag values are modelled as strings where a
  malformed string stands for any unparsable value.
* `datetime.strftime` is modelled per CPython on glibc: `%Y` renders the year
  as an unpadded decimal (year 123 renders as "123"), `%m`/`%d` are
  zero-padded to two digits.
* Python `dict` (insertion-ordered, key-updating) becomes an association
  list with `addToCategory` mirroring `organized[category].append(photo)`.
-/

/-- A `datetime.datetime` value (year, month, day, hour, minute, second). -/
structure Date where
  year : Nat
  month : Nat
  day : Nat
  hour : Nat
  minute : Nat
  second : Nat
deriving DecidableEq, Repr

/-- Gregorian leap-year test, as used by `datetime`. -/
def isLeapYear (y : Nat) : Bool :=
  (y % 4 == 0 && y % 100 != 0) || y % 400 == 0

/-- Number of days in a month, as enforced by the `datetime` constructor. -/
def daysInMonth (y m : Nat) : Nat :=
  if m = 2 then (if isLeapYear y then 29 else 28)
  else if m = 4 ∨ m = 6 ∨ m = 9 ∨ m = 11 then 30
  else 31

/-- The `datetime.datetime(...)` constructor: validates ranges and yields the
value, or raises `ValueError` (modelled as `none`). -/
def mkDatetime (y mo d h mi s : Nat) : Option Date :=
  if 1 ≤ y ∧ y ≤ 9999 ∧ 1 ≤ mo ∧ mo ≤ 12 ∧ 1 ≤ d ∧ d ≤ daysInMonth y mo
      ∧ h ≤ 23 ∧ mi ≤ 59 ∧ s ≤ 59 then
    some ⟨y, mo, d, h, mi, s⟩
  else none

/-- Numeric value of a decimal digit character. -/
def d2n (c : Char) : Nat := c.toNat - 48

/-- CPython `_strptime` field `%Y`: exactly four digits. -/
def parseY : List Char → Option (Nat × List Char)
  | a :: b :: c :: d :: rest =>
    if a.isDigit ∧ b.isDigit ∧ c.isDigit ∧ d.isDigit then
      some (((d2n a * 10 + d2n b) * 10 + d2n c) * 10 + d2n d, rest)
    else none
  | _ => none

/-- CPython `_strptime` field `%m`: regex `1[0-2]|0[1-9]|[1-9]`, alternatives
tried in order. -/
def parseM : List Char → Option (Nat × List Char)
  | '1' :: b :: rest =>
    if '0' ≤ b ∧ b ≤ '2' then some (10 + d2n b, rest)
    else some (1, b :: rest)
  | '0' :: b :: rest =>
    if '1' ≤ b ∧ b ≤ '9' then some (d2n b, rest) else none
  | a :: rest =>
    if '1' ≤ a ∧ a ≤ '9' then some (d2n a, rest) else none
  | [] => none

/-- CPython `_strptime` field `%d`: regex
`3[0-1]|[1-2]\d|0[1-9]|[1-9]| [1-9]`, alternatives tried in order. -/
def parseD : List Char → Option (Nat × List Char)
  | '3' :: b :: rest =>
    if b = '0' ∨ b = '1' then some (30 + d2n b, rest)
    else some (3, b :: rest)
  | a :: b :: rest =>
    if (a = '1' ∨ a = '2') ∧ b.isDigit then some (d2n a * 10 + d2n b, rest)
    else if a = '0' ∧ '1' ≤ b ∧ b ≤ '9' then some (d2n b, rest)
    else if '1' ≤ a ∧ a ≤ '9' then some (d2n a, b :: rest)
    else if a = ' ' ∧ '1' ≤ b ∧ b ≤ '9' then some (d2n b, rest)
    else none
  | [a] => if '1' ≤ a ∧ a ≤ '9' then some (d2n a, []) else none
  | [] => none

/-- CPython `_strptime` field `%H`: regex `2[0-3]|[0-1]\d|\d`. -/
def parseH : List Char → Option (Nat × List Char)
  | '2' :: b :: rest =>
    if '0' ≤ b ∧ b ≤ '3' then some (20 + d2n b, rest)
    else some (2, b :: rest)
  | a :: b :: rest =>
    if (a = '0' ∨ a = '1') ∧ b.isDigit then some (d2n a * 10 + d2n b, rest)
    else if a.isDigit then some (d2n a, b :: rest)
    else none
  | [a] => if a.isDigit then some (d2n a, []) else none
  | [] => none

/-- CPython `_strptime` field `%M`: regex `[0-5]\d|\d`. -/
def parseMin : List Char → Option (Nat × List Char)
  | a :: b :: rest =>
    if '0' ≤ a ∧ a ≤ '5' ∧ b.isDigit then some (d2n a * 10 + d2n b, rest)
    else if a.isDigit then some (d2n a, b :: rest)
    else none
  | [a] => if a.isDigit then some (d2n a, []) else none
  | [] => none

/-- CPython `_strptime` field `%S`: regex `6[0-1]|[0-5]\d|\d`. -/
def parseS : List Char → Option (Nat × List Char)
  | '6' :: b :: rest =>
    if b = '0' ∨ b = '1' then some (60 + d2n b, rest)
    else some (6, b :: rest)
  | a :: b :: rest =>
    if '0' ≤ a ∧ a ≤ '5' ∧ b.isDigit then some (d2n a * 10 + d2n b, rest)
    else if a.isDigit then some (d2n a, b :: rest)
    else none
  | [a] => if a.isDigit then some (d2n a, []) else none
  | [] => none

/-- A literal character in a `strptime` format. -/
def expectLit (c : Char) : List Char → Option (List Char)
  | x :: rest => if x = c then some rest else none
  | [] => none

/-- `datetime.strptime(s, "%Y%m%d")`: the whole string must be consumed
("unconverted data remains" otherwise), then the constructor validates. -/
def strptimeYmd (s : String) : Option Date := do
  let (y, r1) ← parseY s.toList
  let (mo, r2) ← parseM r1
  let (d, r3) ← parseD r2
  if r3 = [] then mkDatetime y mo d 0 0 0 else none

/-- `datetime.strptime(s, "%Y-%m-%d")` (`sep = '-'`) and
`datetime.strptime(s, "%Y_%m_%d")` (`sep = '_'`). -/
def strptimeSep (sep : Char) (s : String) : Option Date := do
  let (y, r1) ← parseY s.toList
  let r2 ← expectLit sep r1
  let (mo, r3) ← parseM r2
  let r4 ← expectLit sep r3
  let (d, r5) ← parseD r4
  if r5 = [] then mkDatetime y mo d 0 0 0 else none

/-- `datetime.strptime(s, "%Y:%m:%d %H:%M:%S")`, the fixed metadata pattern. -/
def strptimeExif (s : String) : Option Date := do
  let (y, r1) ← parseY s.toList
  let r2 ← expectLit ':' r1
  let (mo, r3) ← parseM r2
  let r4 ← expectLit ':' r3
  let (d, r5) ← parseD r4
  let r6 ← expectLit ' ' r5
  let (h, r7) ← parseH r6
  let r8 ← expectLit ':' r7
  let (mi, r9) ← parseMin r8
  let r10 ← expectLit ':' r9
  let (sec, r11) ← parseS r10
  if r11 = [] then mkDatetime y mo d h mi sec else none

/-- One token of a rigid regular-expression pattern: a digit class `\d` or a
literal character.  All patterns in `extract_from_filename` are rigid token
sequences (no alternation, no variable repetition). -/
inductive RTok where
  | dig : RTok
  | lit : Char → RTok
deriving DecidableEq

/-- Whether one pattern token accepts one character. -/
def tokMatch : RTok → Char → Bool
  | .dig, c => c.isDigit
  | .lit l, c => c = l

/-- Match a rigid pattern at the beginning of `cs`; on success return the
matched characters. -/
def matchHere : List RTok → List Char → Option (List Char)
  | [], _ => some []
  | _ :: _, [] => none
  | t :: ts, c :: cs =>
    if tokMatch t c then (matchHere ts cs).map (c :: ·) else none

/-- `re.search` for a rigid pattern: the match at the leftmost position where
one exists (`match.group(0)` of the first match). -/
def reSearch (p : List RTok) : List Char → Option (List Char)
  | [] => matchHere p []
  | c :: rest =>
    match matchHere p (c :: rest) with
    | some m => some m
    | none => reSearch p rest

/-- `\d` repeated `n` times. -/
def digTimes (n : Nat) : List RTok := List.replicate n .dig

/-- A string of literal tokens. -/
def litsOf (s : String) : List RTok := s.toList.map RTok.lit

/-- The `strptime` layout paired with each filename pattern: `"%Y%m%d"` or
`"%Y<sep>%m<sep>%d"`. -/
inductive FnameFmt where
  | ymdCompact : FnameFmt
  | ymdSep : Char → FnameFmt
deriving DecidableEq

/-- The `patterns` table of `DateExtractor.extract_from_filename`, in source
order: `\d{8}`, `\d{4}-\d{2}-\d{2}`, `\d{4}_\d{2}_\d{2}`, `IMG-\d{8}`,
`IMG_\d{8}`, `WA\d{8}`, `IMG_E\d{8}`. -/
def fnamePatterns : List (List RTok × FnameFmt) :=
  [ (digTimes 8, .ymdCompact),
    (digTimes 4 ++ [.lit '-'] ++ digTimes 2 ++ [.lit '-'] ++ digTimes 2, .ymdSep '-'),
    (digTimes 4 ++ [.lit '_'] ++ digTimes 2 ++ [.lit '_'] ++ digTimes 2, .ymdSep '_'),
    (litsOf ("IMG-") ++ digTimes 8, .ymdCompact),
    (litsOf ("IMG_") ++ digTimes 8, .ymdCompact),
    (litsOf ("WA") ++ digTimes 8, .ymdCompact),
    (litsOf ("IMG_E") ++ digTimes 8, .ymdCompact) ]

/-- The vendor markers stripped from a matched substring, in source order. -/
def vendorMarks : List String := ["IMG-", "IMG_", "IMG_E", "WA"]

/-- The stripping loop of `extract_from_filename`: each marker in turn is
removed from the front of the matched substring if present there. -/
def stripVendor (s : List Char) : List Char :=
  vendorMarks.foldl
    (fun acc p => if p.toList.isPrefixOf acc then acc.drop p.toList.length else acc) s

/-- Strip vendor markers from a matched substring, then `strptime` it with the
pattern's layout. -/
def stripParse (fmt : FnameFmt) (m : List Char) : Option Date :=
  let s := stripVendor m
  match fmt with
  | .ymdCompact => strptimeYmd (String.mk s)
  | .ymdSep c => strptimeSep c (String.mk s)

/-- The pattern loop of `extract_from_filename`: first `re.search` hit whose
stripped text parses wins; a parse failure falls through to the next
pattern. -/
def tryPatterns : List (List RTok × FnameFmt) → List Char → Option Date
  | [], _ => none
  | (p, fmt) :: rest, name =>
    match reSearch p name with
    | some m =>
      match stripParse fmt m with
      | some d => some d
      | none => tryPatterns rest name
    | none => tryPatterns rest name

/-- `DateExtractor.extract_from_filename`, applied to `Path.stem`. -/
def extract_from_filename (stem : String) : Option Date :=
  tryPatterns fnamePatterns stem.toList

/-- Outcome of an operation that may raise an uncaught exception. -/
inductive RResult (α : Type) where
  | raised : RResult α
  | val : α → RResult α
deriving DecidableEq

/-- The EXIF dictionary `HeifImageFile(path).getexif()`: integer tag ids to
tag values.  Python dict keys are unique; an association list read through
`lookupTag` models it. -/
structure HeifExif where
  tags : List (Nat × String)
deriving DecidableEq

/-- Dictionary tag read: `tag in exif` / `exif[tag]`. -/
def lookupTag (tags : List (Nat × String)) (t : Nat) : Option String :=
  (tags.find? (fun e => e.1 = t)).map Prod.snd

/-- The tag loop shared by both metadata readers: return the first candidate
tag that is present and parses under `"%Y:%m:%d %H:%M:%S"`; a tag that is
absent or fails to parse is skipped. -/
def searchTags (tags : List (Nat × String)) : List Nat → Option Date
  | [] => none
  | t :: rest =>
    match lookupTag tags t with
    | some v =>
      match strptimeExif v with
      | some d => some d
      | none => searchTags tags rest
    | none => searchTags tags rest

/-- `DateExtractor.extract_from_heic`: given the outcome of opening the file
with `pillow_heif` and reading its EXIF dictionary.  Tag 306 is `DateTime`,
36867 is `DateTimeOriginal`, 36868 is `DateTimeDigitized`; the source
iterates `[306, 36867, 36868]` in that order.  An empty dictionary is falsy
(`if not exif: return None`). -/
def extract_from_heic : RResult HeifExif → RResult (Option Date)
  | .raised => .raised
  | .val e =>
    if e.tags = [] then .val none
    else .val (searchTags e.tags [306, 36867, 36868])

/-- The `exif.Image` object for a JPEG file: the `has_exif` flag and the
attribute map consulted through `hasattr`/`getattr`. -/
structure JpegExif where
  has_exif : Bool
  attrs : List (String × String)
deriving DecidableEq

/-- Attribute read: `hasattr(image, a)` / `getattr(image, a)`. -/
def lookupAttr (attrs : List (String × String)) (a : String) : Option String :=
  (attrs.find? (fun e => e.1 = a)).map Prod.snd

/-- The attribute loop of `extract_from_jpeg`, analogous to `searchTags`. -/
def searchAttrs (attrs : List (String × String)) : List String → Option Date
  | [] => none
  | a :: rest =>
    match lookupAttr attrs a with
    | some v =>
      match strptimeExif v with
      | some d => some d
      | none => searchAttrs attrs rest
    | none => searchAttrs attrs rest

/-- `DateExtractor.extract_from_jpeg`: given the outcome of opening the file
and constructing `exif.Image`.  The source iterates
`["datetime_original", "datetime", "datetime_digitized"]`. -/
def extract_from_jpeg : RResult JpegExif → RResult (Option Date)
  | .raised => .raised
  | .val e =>
    if e.has_exif then .val (searchAttrs e.attrs ["datetime_original", "datetime", "datetime_digitized"])
    else .val none

/-- Python `str.lower` restricted to ASCII, which is all the program compares
against (the supported-extension strings are ASCII). -/
def pyLower (s : String) : String := String.mk (s.toList.map Char.toLower)

/-- Python `str.startswith`. -/
def pyStartsWith (s marker : String) : Bool := marker.toList.isPrefixOf s.toList

/-- One file as the scan sees it: the pieces of `Path` the program reads
(`stem`, `suffix`), the outcome each metadata library read would produce for
it, and `datetime.fromtimestamp(os.path.getmtime(path))` (the claims assume
the modification time is available). -/
structure FileCtx where
  stem : String
  suffix : String
  heic : RResult HeifExif
  jpeg : RResult JpegExif
  mtimeDate : Date
deriving DecidableEq

/-- `Path.name`: the final component, i.e. stem plus suffix. -/
def FileCtx.name (f : FileCtx) : String := f.stem ++ f.suffix

/-- The metadata branch of `DateExtractor.get_date`: HEIC files go through
`extract_from_heic`, `.jpg`/`.jpeg` through `extract_from_jpeg`, every other
extension gets `date = None` without any metadata read. -/
def metaRead (f : FileCtx) : RResult (Option Date) :=
  if pyLower f.suffix = ".heic" then extract_from_heic f.heic
  else if pyLower f.suffix = ".jpg" ∨ pyLower f.suffix = ".jpeg" then extract_from_jpeg f.jpeg
  else .val none

/-- `DateExtractor.get_date`: metadata date if any, else filename date, else
the modification time.  An exception raised by a metadata read propagates
(there is no handler inside `DateExtractor`). -/
def get_date (f : FileCtx) : RResult Date :=
  match metaRead f with
  | .raised => .raised
  | .val d =>
    let d2 := match d with
      | some dd => some dd
      | none => extract_from_filename f.stem
    .val (d2.getD f.mtimeDate)

/-- `SeasonMapper.get_season`. -/
def get_season (date : Date) : String :=
  let month := date.month
  if month = 12 ∨ month = 1 ∨ month = 2 then ("Winter")
  else if month = 3 ∨ month = 4 ∨ month = 5 then ("Spring")
  else if month = 6 ∨ month = 7 ∨ month = 8 then ("Summer")
  else ("Fall")

/-- `SortingType`. -/
inductive SortingType where
  | YEARLY : SortingType
  | MONTHLY : SortingType
  | DAILY : SortingType
  | SEASON : SortingType
deriving DecidableEq

/-- `strftime` two-digit zero padding (`%m`, `%d`). -/
def pad2 (n : Nat) : String := if n < 10 then ("0" ++ Nat.repr n) else Nat.repr n

/-- `strftime("%Y")` under CPython on glibc: the year as an unpadded decimal
number (year 123 renders as "123", not "0123"). -/
def fmtY (d : Date) : String := Nat.repr d.year

/-- `strftime("%Y-%m")`. -/
def fmtYm (d : Date) : String := fmtY d ++ "-" ++ pad2 d.month

/-- `strftime("%Y-%m-%d")`. -/
def fmtYmd (d : Date) : String := fmtYm d ++ "-" ++ pad2 d.day

/-- `PhotoFile`: a scanned file together with its resolved date. -/
structure PhotoFile where
  file : FileCtx
  date_taken : Date
deriving DecidableEq

/-- `PhotoOrganizer._get_category`. -/
def get_category (photo : PhotoFile) (sort_type : SortingType) (create_year_parent : Bool) : String :=
  let year := fmtY photo.date_taken
  match sort_type with
  | .YEARLY => year ++ "_Photos"
  | .MONTHLY =>
    let c := fmtYm photo.date_taken ++ "_Photos"
    if create_year_parent then year ++ "/" ++ c else c
  | .DAILY =>
    let c := fmtYmd photo.date_taken ++ "_Photos"
    if create_year_parent then year ++ "/" ++ c else c
  | .SEASON =>
    let c := fmtY photo.date_taken ++ "_" ++ get_season photo.date_taken ++ "_Photos"
    if create_year_parent then year ++ "/" ++ c else c

/-- `PhotoOrganizer.supported_extensions`. -/
def supported_extensions : List String := [".jpg", ".jpeg", ".png", ".heic"]

/-- `PhotoOrganizer.scan_photos` over the files `rglob` enumerates, in
enumeration order: skip names starting with `"._"`, keep supported
extensions (lower-cased suffix), resolve each date; an exception from
`get_date` is caught, reported through `st.error` with the file's path
(second component), and the scan continues. -/
def scan_photos : List FileCtx → List PhotoFile × List String
  | [] => ([], [])
  | f :: rest =>
    let acc := scan_photos rest
    if pyStartsWith (FileCtx.name f) "._" then acc
    else if pyLower f.suffix ∈ supported_extensions then
      match get_date f with
      | .val d => (⟨f, d⟩ :: acc.1, acc.2)
      | .raised => (acc.1, FileCtx.name f :: acc.2)
    else acc

/-- `organized[category].append(photo)` on an insertion-ordered dict: append
to the existing entry for the key, or add a new entry at the end. -/
def addToCategory : List (String × List PhotoFile) → String → PhotoFile → List (String × List PhotoFile)
  | [], cat, p => [(cat, [p])]
  | e :: rest, cat, p =>
    if e.1 = cat then (e.1, e.2 ++ [p]) :: rest
    else e :: addToCategory rest cat p

/-- `PhotoOrganizer.organize_photos`. -/
def organize_photos (photos : List PhotoFile) (sort_type : SortingType) (create_year_parent : Bool) :
    List (String × List PhotoFile) :=
  photos.foldl (fun m p => addToCategory m (get_category p sort_type create_year_parent) p) []

/-- All photos placed in a plan, in plan order. -/
def planFiles (plan : List (String × List PhotoFile)) : List PhotoFile :=
  (plan.map Prod.snd).flatten

/-- `process_organization`: scan, bail out when nothing was found, else group.
The return value is only the category map. -/
def process_organization (files : List FileCtx) (sort_type : SortingType) (create_year_parent : Bool) :
    Option (List (String × List PhotoFile)) :=
  let photos := (scan_photos files).1
  if photos = [] then none
  else some (organize_photos photos sort_type create_year_parent)

/-- `ProcessStats`. -/
structure ProcessStats where
  total_photos : Nat
  processed_folders : Nat
  processed_files : Nat
  skipped_files : Nat
  errors : Nat
deriving DecidableEq

/-- The statistics value the application session holds after a preview run:
`main` constructs `ProcessStats(total_photos=photos_count)` and no code path
ever assigns the other fields, which keep their dataclass defaults of 0. -/
def sessionStats (files : List FileCtx) (sort_type : SortingType) (create_year_parent : Bool) :
    Option ProcessStats :=
  (process_organization files sort_type create_year_parent).map
    (fun plan => ⟨(planFiles plan).length, 0, 0, 0, 0⟩)

/-- The filter of `scan_photos`: not a `"._"` resource-fork artifact, and the
lower-cased suffix is supported. -/
def eligible (f : FileCtx) : Bool :=
  !pyStartsWith (FileCtx.name f) "._" && decide (pyLower f.suffix ∈ supported_extensions)

/-! ### Helper lemmas -/

/-- Grouping a photo into the plan adds exactly that photo to the plan's
flattened contents. -/
theorem countP_planFiles_addToCategory (m : List (String × List PhotoFile)) (cat : String)
    (p : PhotoFile) (pr : PhotoFile → Bool) :
    (planFiles (addToCategory m cat p)).countP pr =
      (planFiles m).countP pr + (if pr p then 1 else 0) := by
  induction m with
  | nil => simp [addToCategory, planFiles, List.countP_cons]
  | cons e rest ih =>
    by_cases h : e.1 = cat
    · simp [addToCategory, h, planFiles, List.countP_append, List.countP_cons]
      omega
    · simp [addToCategory, h, planFiles, List.countP_append] at ih ⊢
      omega

/-- The grouping fold preserves photo counts. -/
theorem countP_planFiles_foldl (photos : List PhotoFile) (st : SortingType) (yp : Bool)
    (m : List (String × List PhotoFile)) (pr : PhotoFile → Bool) :
    (planFiles (photos.foldl (fun acc p => addToCategory acc (get_category p st yp) p) m)).countP pr =
      (planFiles m).countP pr + photos.countP pr := by
  induction photos generalizing m with
  | nil => simp
  | cons p ps ih =>
    simp only [List.foldl_cons, ih, countP_planFiles_addToCategory, List.countP_cons]
    omega

/-- `organize_photos` is a pure regrouping: each photo occurs in its output
exactly as often as in its input. -/
theorem countP_planFiles_organize (photos : List PhotoFile) (st : SortingType) (yp : Bool)
    (pr : PhotoFile → Bool) :
    (planFiles (organize_photos photos st yp)).countP pr = photos.countP pr := by
  simpa [organize_photos, planFiles] using countP_planFiles_foldl photos st yp [] pr

/-- In a duplicate-free list, a member is counted exactly once. -/
theorem countP_eq_one_of_nodup_mem {α : Type} [DecidableEq α] {l : List α} {a : α}
    (hnd : l.Nodup) (ha : a ∈ l) :
    l.countP (fun x => decide (x = a)) = 1 := by
  induction l with
  | nil => cases ha
  | cons b bs ih =>
    rcases List.nodup_cons.mp hnd with ⟨hb, hbs⟩
    rcases List.mem_cons.mp ha with rfl | hmem
    · have hz : bs.countP (fun x => decide (x = a)) = 0 :=
        List.countP_eq_zero.mpr (fun x hx => by
          simp only [decide_eq_true_eq]
          rintro rfl
          exact hb hx)
      simp [List.countP_cons, hz]
    · have hne : b ≠ a := fun hba => hb (hba ▸ hmem)
      simp [List.countP_cons, ih hbs hmem, hne]

/-- A scan that reported no errors kept exactly the eligible files, in
enumeration order, each paired with its resolved date. -/
theorem scan_no_errors_files (files : List FileCtx) (h : (scan_photos files).2 = []) :
    (scan_photos files).1.map PhotoFile.file = files.filter eligible := by
  induction files with
  | nil => simp [scan_photos]
  | cons f rest ih =>
    by_cases h1 : pyStartsWith (FileCtx.name f) "._"
    · have he : eligible f = false := by simp [eligible, h1]
      have h' : (scan_photos rest).2 = [] := by
        simpa [scan_photos, h1] using h
      simpa [scan_photos, h1, List.filter_cons, he] using ih h'
    · by_cases h2 : pyLower f.suffix ∈ supported_extensions
      · have he : eligible f = true := by simp [eligible, h1, h2]
        match hd : get_date f with
        | .raised =>
          exfalso
          have : (scan_photos (f :: rest)).2 = FileCtx.name f :: (scan_photos rest).2 := by
            simp [scan_photos, h1, h2, hd]
          rw [this] at h
          exact List.cons_ne_nil _ _ h
        | .val d =>
          have h' : (scan_photos rest).2 = [] := by
            simpa [scan_photos, h1, h2, hd] using h
          have := ih h'
          simp [scan_photos, h1, h2, hd, List.filter_cons, he, this]
      · have he : eligible f = false := by simp [eligible, h2]
        have h' : (scan_photos rest).2 = [] := by
          simpa [scan_photos, h1, h2] using h
        simpa [scan_photos, h1, h2, List.filter_cons, he] using ih h'

/-- Scanning a concatenation concatenates both the photos and the error
reports. -/
theorem scan_photos_append (xs ys : List FileCtx) :
    scan_photos (xs ++ ys) =
      ((scan_photos xs).1 ++ (scan_photos ys).1, (scan_photos xs).2 ++ (scan_photos ys).2) := by
  induction xs with
  | nil => simp [scan_photos]
  | cons f rest ih =>
    by_cases h1 : pyStartsWith (FileCtx.name f) "._"
    · simp [scan_photos, h1, ih]
    · by_cases h2 : pyLower f.suffix ∈ supported_extensions
      · match hd : get_date f with
        | .raised => simp [scan_photos, h1, h2, hd, ih]
        | .val d => simp [scan_photos, h1, h2, hd, ih]
      · simp [scan_photos, h1, h2, ih]

/-! ### Claim theorems -/

/-- C9: `get_season` is a pure total function of the month: months 12, 1, 2
map to Winter, 3, 4, 5 to Spring, 6, 7, 8 to Summer and 9, 10, 11 to Fall,
for every year, day and time. -/
theorem season_mapping (d : Date) :
    ((d.month = 12 ∨ d.month = 1 ∨ d.month = 2) → get_season d = "Winter") ∧
    ((d.month = 3 ∨ d.month = 4 ∨ d.month = 5) → get_season d = "Spring") ∧
    ((d.month = 6 ∨ d.month = 7 ∨ d.month = 8) → get_season d = "Summer") ∧
    ((d.month = 9 ∨ d.month = 10 ∨ d.month = 11) → get_season d = "Fall") := by
  unfold get_season
  refine ⟨?_, ?_, ?_, ?_⟩ <;> rintro (h | h | h) <;> simp [h]

/-- Witness for C9 at the months named by the claim: 1, 4, 7, 10 map to
Winter, Spring, Summer, Fall. -/
theorem season_mapping_check :
    get_season ⟨2024, 1, 15, 0, 0, 0⟩ = "Winter" ∧
    get_season ⟨2021, 4, 2, 0, 0, 0⟩ = "Spring" ∧
    get_season ⟨1999, 7, 31, 0, 0, 0⟩ = "Summer" ∧
    get_season ⟨2030, 10, 9, 0, 0, 0⟩ = "Fall" :=
  ⟨(season_mapping ⟨2024, 1, 15, 0, 0, 0⟩).1 (Or.inr (Or.inl rfl)),
   (season_mapping ⟨2021, 4, 2, 0, 0, 0⟩).2.1 (Or.inr (Or.inl rfl)),
   (season_mapping ⟨1999, 7, 31, 0, 0, 0⟩).2.2.1 (Or.inr (Or.inl rfl)),
   (season_mapping ⟨2030, 10, 9, 0, 0, 0⟩).2.2.2 (Or.inr (Or.inl rfl))⟩

/-- Zero padding to four digits, as claim C4 words the year rendering. -/
def pad4 (n : Nat) : String :=
  if n < 10 then ("000" ++ Nat.repr n)
  else if n < 100 then ("00" ++ Nat.repr n)
  else if n < 1000 then ("0" ++ Nat.repr n)
  else Nat.repr n

/-- Modelled from the spec: the category renderer exactly as claim C4 states
it, with a zero-padded 4-digit year, for comparison with the source's
`get_category`. -/
def categoryClaimed (d : Date) (sort_type : SortingType) (create_year_parent : Bool) : String :=
  let base :=
    match sort_type with
    | .YEARLY => pad4 d.year ++ "_Photos"
    | .MONTHLY => pad4 d.year ++ "-" ++ pad2 d.month ++ "_Photos"
    | .DAILY => pad4 d.year ++ "-" ++ pad2 d.month ++ "-" ++ pad2 d.day ++ "_Photos"
    | .SEASON => pad4 d.year ++ "_" ++ get_season d ++ "_Photos"
  match sort_type with
  | .YEARLY => base
  | _ => if create_year_parent then pad4 d.year ++ "/" ++ base else base

/-- A file value used by concrete instances; which file a `PhotoFile` carries
is irrelevant to `get_category`, which reads only the resolved date. -/
def someFile : FileCtx := ⟨"a", ".jpg", .raised, .raised, ⟨2000, 1, 1, 0, 0, 0⟩⟩

/-- Counterexample to C4: `strftime("%Y")` does not zero-pad years below
1000, so the valid date 0123-01-15 (reachable, e.g., from a filename
containing `01230115`) renders with a 3-digit year, not the 4-digit year the
claim states. -/
theorem category_year_unpadded_cex :
    get_category ⟨someFile, ⟨123, 1, 15, 0, 0, 0⟩⟩ .MONTHLY false = "123-01_Photos" ∧
    categoryClaimed ⟨123, 1, 15, 0, 0, 0⟩ .MONTHLY false = "0123-01_Photos" ∧
    get_category ⟨someFile, ⟨123, 1, 15, 0, 0, 0⟩⟩ .MONTHLY false ≠
      categoryClaimed ⟨123, 1, 15, 0, 0, 0⟩ .MONTHLY false := by
  refine ⟨rfl, rfl, ?_⟩
  decide

/-- C4 (amended): `get_category` is a pure total function; month and day are
zero-padded to two digits while the year is rendered as an unpadded decimal
(hence 4 digits exactly for years 1000-9999); `create_year_parent` is
ignored for Yearly and prepends `"{year}/"` for the other granularities;
identical inputs give identical strings; and the claim's concrete Monthly
examples for 2024-03-05 hold. -/
theorem category_formats (f : FileCtx) (d : Date) (yp : Bool) :
    get_category ⟨f, d⟩ .YEARLY yp = Nat.repr d.year ++ "_Photos" ∧
    get_category ⟨f, d⟩ .MONTHLY yp =
      (if yp then Nat.repr d.year ++ "/" ++ (Nat.repr d.year ++ "-" ++ pad2 d.month ++ "_Photos")
       else Nat.repr d.year ++ "-" ++ pad2 d.month ++ "_Photos") ∧
    get_category ⟨f, d⟩ .DAILY yp =
      (if yp then
        Nat.repr d.year ++ "/" ++ (Nat.repr d.year ++ "-" ++ pad2 d.month ++ "-" ++ pad2 d.day ++ "_Photos")
       else Nat.repr d.year ++ "-" ++ pad2 d.month ++ "-" ++ pad2 d.day ++ "_Photos") ∧
    get_category ⟨f, d⟩ .SEASON yp =
      (if yp then Nat.repr d.year ++ "/" ++ (Nat.repr d.year ++ "_" ++ get_season d ++ "_Photos")
       else Nat.repr d.year ++ "_" ++ get_season d ++ "_Photos") ∧
    get_category ⟨f, d⟩ .YEARLY true = get_category ⟨f, d⟩ .YEARLY false ∧
    get_category ⟨f, d⟩ .MONTHLY yp = get_category ⟨f, d⟩ .MONTHLY yp ∧
    get_category ⟨someFile, ⟨2024, 3, 5, 0, 0, 0⟩⟩ .MONTHLY true = "2024/2024-03_Photos" ∧
    get_category ⟨someFile, ⟨2024, 3, 5, 0, 0, 0⟩⟩ .MONTHLY false = "2024-03_Photos" := by
  cases yp <;>
    exact ⟨rfl, rfl, rfl, rfl, rfl, rfl, by decide, by decide⟩

/-- C1: whenever the metadata branch of `get_date` yields a parsed date, that
date is the result, regardless of the file's stem (filename parsing) and of
its modification time — neither is consulted. -/
theorem metadata_wins (f : FileCtx) (d : Date) (h : metaRead f = .val (some d)) :
    ∀ (stem2 : String) (mt : Date),
      get_date { f with stem := stem2, mtimeDate := mt } = .val d := by
  intro stem2 mt
  have h2 : metaRead { f with stem := stem2, mtimeDate := mt } = .val (some d) := h
  simp [get_date, h2]

/-- Witness for C1, the claim's concrete scenario: embedded metadata date
`2024:03:15` beats a filename containing `20230101` and an mtime of 1999. -/
theorem metadata_wins_check :
    get_date ⟨"20230101_trip", ".jpg", .val ⟨[]⟩,
        .val ⟨true, [("datetime_original", "2024:03:15 10:00:00")]⟩,
        ⟨1999, 1, 1, 0, 0, 0⟩⟩ = .val ⟨2024, 3, 15, 10, 0, 0⟩ :=
  metadata_wins
    ⟨"x", ".jpg", .val ⟨[]⟩, .val ⟨true, [("datetime_original", "2024:03:15 10:00:00")]⟩,
      ⟨2000, 2, 2, 0, 0, 0⟩⟩
    ⟨2024, 3, 15, 10, 0, 0⟩ (by decide) "20230101_trip" ⟨1999, 1, 1, 0, 0, 0⟩

/-- C10: for any extension whose lower-casing is not `.heic`, `.jpg` or
`.jpeg` — `.png` included — `get_date` never performs a metadata read: the
result is the same for every metadata-library outcome (even one that would
raise) and equals the filename date or, failing that, the modification
time. -/
theorem no_metadata_outside_heic_jpeg (f : FileCtx)
    (h1 : pyLower f.suffix ≠ ".heic") (h2 : pyLower f.suffix ≠ ".jpg")
    (h3 : pyLower f.suffix ≠ ".jpeg") :
    ∀ (hc : RResult HeifExif) (je : RResult JpegExif),
      get_date { f with heic := hc, jpeg := je } =
        .val ((extract_from_filename f.stem).getD f.mtimeDate) := by
  intro hc je
  have hm : metaRead { f with heic := hc, jpeg := je } = .val none := by
    simp [metaRead, h1, h2, h3]
  simp [get_date, hm]

/-- Witness for C10: a `.png` file resolves from its modification time even
when both metadata libraries would raise on it. -/
theorem no_metadata_outside_heic_jpeg_check :
    get_date ⟨"note", ".png", .raised, .raised, ⟨2022, 1, 1, 0, 0, 0⟩⟩ =
      .val ((extract_from_filename ("note")).getD ⟨2022, 1, 1, 0, 0, 0⟩) :=
  no_metadata_outside_heic_jpeg
    ⟨"note", ".png", .val ⟨[]⟩, .val ⟨false, []⟩, ⟨2022, 1, 1, 0, 0, 0⟩⟩
    (by decide) (by decide) (by decide) .raised .raised

/-- The outcome of a single `(pattern, layout)` row on a name: the leftmost
match, vendor-stripped and parsed. -/
def patOutcome (name : List Char) (row : List RTok × FnameFmt) : Option Date :=
  (reSearch row.1 name).bind (stripParse row.2)

/-- The pattern loop returns the first row whose match parses. -/
theorem tryPatterns_eq_findSome (rows : List (List RTok × FnameFmt)) (name : List Char) :
    tryPatterns rows name = rows.findSome? (patOutcome name) := by
  induction rows with
  | nil => simp [tryPatterns]
  | cons row rest ih =>
    obtain ⟨p, fmt⟩ := row
    simp only [tryPatterns, List.findSome?_cons, patOutcome]
    cases hs : reSearch p name with
    | none => simpa [hs, Option.bind] using ih
    | some m =>
      cases hp : stripParse fmt m with
      | none => simpa [hs, hp, Option.bind] using ih
      | some d => simp [hs, hp, Option.bind]

/-- C5: filename parsing evaluates the fixed table `fnamePatterns` — compact
8-digit, `YYYY-MM-DD`, `YYYY_MM_DD`, then the `IMG-`, `IMG_`, `WA`, `IMG_E`
compact variants — in order, taking each pattern's leftmost match, stripping
recognized vendor markers from the matched substring before parsing, and
falling through to the next pattern when parsing fails; and the name
`IMG_20240115_foo` with no embedded metadata resolves via filename parsing
to 2024-01-15 whatever the modification time is. -/
theorem filename_pattern_priority :
    (∀ name : String, extract_from_filename name = fnamePatterns.findSome? (patOutcome name.toList)) ∧
    (∀ (hc : RResult HeifExif) (mt : Date),
      get_date ⟨"IMG_20240115_foo", ".jpg", hc, .val ⟨false, []⟩, mt⟩ =
        .val ⟨2024, 1, 15, 0, 0, 0⟩) :=
  ⟨fun name => tryPatterns_eq_findSome fnamePatterns name.toList, fun _ _ => rfl⟩

/-- Counterexample to C6: in the HEIC reader the source iterates
`[306, 36867, 36868]`, i.e. `DateTime` before `DateTimeOriginal`; with both
tags present and parseable the reader returns the `DateTime` (306) value,
not the `DateTimeOriginal` (36867) value the claim requires. -/
theorem heic_tag_order_cex :
    extract_from_heic (.val ⟨[(306, "2020:01:01 00:00:00"), (36867, "2021:05:05 00:00:00")]⟩) =
      .val (some ⟨2020, 1, 1, 0, 0, 0⟩) ∧
    strptimeExif ("2021:05:05 00:00:00") = some ⟨2021, 5, 5, 0, 0, 0⟩ ∧
    (⟨2020, 1, 1, 0, 0, 0⟩ : Date) ≠ ⟨2021, 5, 5, 0, 0, 0⟩ := by
  refine ⟨rfl, rfl, ?_⟩
  decide

/-- C6 (amended): each reader scans its fixed tag list in order — the JPEG
reader `datetime_original`, `datetime`, `datetime_digitized` as the claim
states, but the HEIC reader `DateTime` (306), `DateTimeOriginal` (36867),
`DateTimeDigitized` (36868) — returning the first tag that exists and parses
under `YYYY:MM:DD HH:MM:SS`, and skipping a tag that is absent or fails to
parse to continue with the next candidate. -/
theorem metadata_tag_order_amended :
    (∀ e : HeifExif, e.tags ≠ [] →
        extract_from_heic (.val e) = .val (searchTags e.tags [306, 36867, 36868])) ∧
    (∀ e : JpegExif, e.has_exif = true →
        extract_from_jpeg (.val e) =
          .val (searchAttrs e.attrs ["datetime_original", "datetime", "datetime_digitized"])) ∧
    (∀ (tags : List (Nat × String)) (t : Nat) (rest : List Nat),
        (lookupTag tags t = none → searchTags tags (t :: rest) = searchTags tags rest) ∧
        (∀ v, lookupTag tags t = some v → strptimeExif v = none →
            searchTags tags (t :: rest) = searchTags tags rest) ∧
        (∀ v d, lookupTag tags t = some v → strptimeExif v = some d →
            searchTags tags (t :: rest) = some d)) ∧
    (∀ (attrs : List (String × String)) (a : String) (rest : List String),
        (lookupAttr attrs a = none → searchAttrs attrs (a :: rest) = searchAttrs attrs rest) ∧
        (∀ v, lookupAttr attrs a = some v → strptimeExif v = none →
            searchAttrs attrs (a :: rest) = searchAttrs attrs rest) ∧
        (∀ v d, lookupAttr attrs a = some v → strptimeExif v = some d →
            searchAttrs attrs (a :: rest) = some d)) := by
  refine ⟨?_, ?_, ?_, ?_⟩
  · intro e he
    simp [extract_from_heic, he]
  · intro e he
    simp [extract_from_jpeg, he]
  · intro tags t rest
    refine ⟨fun h => by simp [searchTags, h], fun v h1 h2 => by simp [searchTags, h1, h2],
      fun v d h1 h2 => by simp [searchTags, h1, h2]⟩
  · intro attrs a rest
    refine ⟨fun h => by simp [searchAttrs, h], fun v h1 h2 => by simp [searchAttrs, h1, h2],
      fun v d h1 h2 => by simp [searchAttrs, h1, h2]⟩

/-- Witness for C6 (amended) on a HEIC container where 306 is absent and
36867 is present but malformed: the reader arrives at the parseable
36868. -/
theorem metadata_tag_order_amended_check :
    extract_from_heic (.val ⟨[(36867, "garbage"), (36868, "2022:08:01 09:30:00")]⟩) =
      .val (searchTags [(36867, "garbage"), (36868, "2022:08:01 09:30:00")] [306, 36867, 36868]) :=
  metadata_tag_order_amended.1 ⟨[(36867, "garbage"), (36868, "2022:08:01 09:30:00")]⟩ (by decide)

/-- Counterexample to C7: when the metadata container itself is unreadable
the reader construction raises (`ExifImage(...)` has no handler inside
`extract_from_jpeg`), the resolver does not fall back to filename or mtime,
and `scan_photos` records the file as a per-file error and excludes it from
the plan. -/
theorem unreadable_container_cex :
    extract_from_jpeg .raised = .raised ∧
    get_date ⟨"photo1", ".jpg", .val ⟨[]⟩, .raised, ⟨2020, 1, 1, 0, 0, 0⟩⟩ = .raised ∧
    scan_photos [⟨"photo1", ".jpg", .val ⟨[]⟩, .raised, ⟨2020, 1, 1, 0, 0, 0⟩⟩] =
      ([], ["photo1.jpg"]) := by
  refine ⟨rfl, rfl, ?_⟩
  decide

/-- C7 (amended): a metadata container that is absent or empty, or in which
no candidate tag parses, yields `None` (not a fault); the resolver then
proceeds to filename parsing and, if needed, mtime, and the file stays in
the plan.  Only a read that itself raises (unreadable/corrupt container)
propagates and excludes the file as a per-file error. -/
theorem notfound_falls_through :
    (∀ e : JpegExif, e.has_exif = false → extract_from_jpeg (.val e) = .val none) ∧
    (∀ e : JpegExif,
        searchAttrs e.attrs ["datetime_original", "datetime", "datetime_digitized"] = none →
        extract_from_jpeg (.val e) = .val none) ∧
    (∀ e : HeifExif, searchTags e.tags [306, 36867, 36868] = none →
        extract_from_heic (.val e) = .val none) ∧
    (∀ f : FileCtx, metaRead f = .val none →
        get_date f = .val ((extract_from_filename f.stem).getD f.mtimeDate)) ∧
    (∀ f : FileCtx, metaRead f = .val none → eligible f = true →
        scan_photos [f] = ([⟨f, (extract_from_filename f.stem).getD f.mtimeDate⟩], [])) := by
  have hget : ∀ f : FileCtx, metaRead f = .val none →
      get_date f = .val ((extract_from_filename f.stem).getD f.mtimeDate) := by
    intro f hm
    simp [get_date, hm]
  refine ⟨?_, ?_, ?_, hget, ?_⟩
  · intro e he
    simp [extract_from_jpeg, he]
  · intro e he
    cases hx : e.has_exif <;> simp [extract_from_jpeg, hx, he]
  · intro e he
    by_cases hx : e.tags = [] <;> simp [extract_from_heic, hx, he]
  · intro f hm helig
    simp only [eligible, Bool.and_eq_true, Bool.not_eq_true', decide_eq_true_eq] at helig
    obtain ⟨hh, hs⟩ := helig
    simp [scan_photos, hh, hs, hget f hm]

/-- Witness for C7 (amended): a `.png` file (no metadata container at all)
with no filename date resolves from mtime and stays in the plan with no
error recorded. -/
theorem notfound_falls_through_check :
    scan_photos [⟨"pic", ".png", .raised, .raised, ⟨2022, 1, 1, 0, 0, 0⟩⟩] =
      ([⟨⟨"pic", ".png", .raised, .raised, ⟨2022, 1, 1, 0, 0, 0⟩⟩,
          (extract_from_filename ("pic")).getD ⟨2022, 1, 1, 0, 0, 0⟩⟩], []) :=
  notfound_falls_through.2.2.2.2 ⟨"pic", ".png", .raised, .raised, ⟨2022, 1, 1, 0, 0, 0⟩⟩
    (by decide) (by decide)

/-- C2: for a file whose metadata read returns normally (the file is
readable) and whose mtime is available, `get_date` always produces exactly
one date — never a \"not found\" and never a fault — and that date is the
metadata date, else the filename date, else the modification time. -/
theorem resolver_total (f : FileCtx) (h : metaRead f ≠ .raised) :
    ∃ d : Date, get_date f = .val d ∧
      (metaRead f = .val (some d) ∨
       (metaRead f = .val none ∧ extract_from_filename f.stem = some d) ∨
       (metaRead f = .val none ∧ extract_from_filename f.stem = none ∧ d = f.mtimeDate)) := by
  match hm : metaRead f with
  | .raised => exact absurd hm h
  | .val (some d) => exact ⟨d, by simp [get_date, hm], Or.inl rfl⟩
  | .val none =>
    cases hf : extract_from_filename f.stem with
    | some d => exact ⟨d, by simp [get_date, hm, hf], Or.inr (Or.inl ⟨rfl, rfl⟩)⟩
    | none => exact ⟨f.mtimeDate, by simp [get_date, hm, hf], Or.inr (Or.inr ⟨rfl, rfl, rfl⟩)⟩

/-- Witness for C2 on a file with no metadata and no filename date: the
mtime fallback produces the date. -/
theorem resolver_total_check :
    ∃ d : Date,
      get_date ⟨"nodate", ".png", .raised, .raised, ⟨2022, 1, 1, 0, 0, 0⟩⟩ = .val d ∧
      (metaRead ⟨"nodate", ".png", .raised, .raised, ⟨2022, 1, 1, 0, 0, 0⟩⟩ = .val (some d) ∨
       (metaRead ⟨"nodate", ".png", .raised, .raised, ⟨2022, 1, 1, 0, 0, 0⟩⟩ = .val none ∧
          extract_from_filename ("nodate") = some d) ∨
       (metaRead ⟨"nodate", ".png", .raised, .raised, ⟨2022, 1, 1, 0, 0, 0⟩⟩ = .val none ∧
          extract_from_filename ("nodate") = none ∧ d = ⟨2022, 1, 1, 0, 0, 0⟩)) :=
  resolver_total ⟨"nodate", ".png", .raised, .raised, ⟨2022, 1, 1, 0, 0, 0⟩⟩ (by decide)

/-- C3: with no per-file errors, the plan is a total, non-overlapping
partition of the surviving files: the summed list lengths equal the number
of eligible files (supported extension, case-insensitively, and no `._`
name); each eligible enumerated file occurs in exactly one list position
across the plan; and a `._`-prefixed or unsupported-extension file occurs
nowhere in the plan. -/
theorem plan_partition (files : List FileCtx) (st : SortingType) (yp : Bool)
    (hnd : files.Nodup) (herr : (scan_photos files).2 = []) :
    (((organize_photos (scan_photos files).1 st yp).map (fun e => e.2.length)).sum =
        (files.filter eligible).length) ∧
    (∀ f ∈ files, eligible f = true →
        (planFiles (organize_photos (scan_photos files).1 st yp)).countP
          (fun p => decide (p.file = f)) = 1) ∧
    (∀ f : FileCtx, eligible f = false →
        (planFiles (organize_photos (scan_photos files).1 st yp)).countP
          (fun p => decide (p.file = f)) = 0) := by
  have hmap := scan_no_errors_files files herr
  have hcnt : ∀ f : FileCtx,
      (planFiles (organize_photos (scan_photos files).1 st yp)).countP
          (fun p => decide (p.file = f)) =
        (files.filter eligible).countP (fun x => decide (x = f)) := by
    intro f
    rw [countP_planFiles_organize, ← hmap, List.countP_map]
    rfl
  refine ⟨?_, ?_, ?_⟩
  · have h1 : ((organize_photos (scan_photos files).1 st yp).map (fun e => e.2.length)).sum
        = (planFiles (organize_photos (scan_photos files).1 st yp)).length := by
      simp only [planFiles, List.length_flatten, List.map_map]
      rfl
    have h2 : (planFiles (organize_photos (scan_photos files).1 st yp)).length
        = ((scan_photos files).1).length := by
      have := countP_planFiles_organize (scan_photos files).1 st yp (fun _ => true)
      simpa [List.countP_true] using this
    have h3 : ((scan_photos files).1).length = (files.filter eligible).length := by
      rw [← hmap, List.length_map]
    rw [h1, h2, h3]
  · intro f hf he
    rw [hcnt f]
    exact countP_eq_one_of_nodup_mem (hnd.filter _) (List.mem_filter.mpr ⟨hf, he⟩)
  · intro f he
    rw [hcnt f]
    refine List.countP_eq_zero.mpr ?_
    intro x hx
    simp only [decide_eq_true_eq]
    rintro rfl
    have hx2 := (List.mem_filter.mp hx).2
    rw [he] at hx2
    exact Bool.false_ne_true hx2

/-- A concrete source tree for the C3 witness: one supported `.jpg`, one
`._` resource-fork artifact, one unsupported `.gif`, one supported `.HEIC`
(upper-case) with an embedded date. -/
def exScanFiles : List FileCtx :=
  [⟨"a", ".jpg", .val ⟨[]⟩, .val ⟨false, []⟩, ⟨2024, 3, 15, 0, 0, 0⟩⟩,
   ⟨"._thumbnail", ".jpg", .raised, .raised, ⟨2020, 1, 1, 0, 0, 0⟩⟩,
   ⟨"anim", ".gif", .raised, .raised, ⟨2020, 1, 1, 0, 0, 0⟩⟩,
   ⟨"b", ".HEIC", .val ⟨[(36867, "2021:05:05 00:00:00")]⟩, .val ⟨false, []⟩,
     ⟨2019, 2, 2, 0, 0, 0⟩⟩]

/-- Witness for C3 on `exScanFiles`: the plan sizes add up to the eligible
count, and the `.gif` file appears nowhere in the plan. -/
theorem plan_partition_check :
    (((organize_photos (scan_photos exScanFiles).1 .DAILY false).map (fun e => e.2.length)).sum =
        (exScanFiles.filter eligible).length) ∧
    (planFiles (organize_photos (scan_photos exScanFiles).1 .DAILY false)).countP
        (fun p => decide (p.file = ⟨"anim", ".gif", .raised, .raised, ⟨2020, 1, 1, 0, 0, 0⟩⟩)) = 0 :=
  ⟨(plan_partition exScanFiles .DAILY false (by decide) (by decide)).1,
   (plan_partition exScanFiles .DAILY false (by decide) (by decide)).2.2
     ⟨"anim", ".gif", .raised, .raised, ⟨2020, 1, 1, 0, 0, 0⟩⟩ (by decide)⟩

/-- Counterexample to C8: a run over one failing file and one good file —
the scan reports exactly one per-file error, yet the session statistics the
application builds carry `errors = 0` and `skipped_files = 0`
(`ProcessStats.errors` is never incremented anywhere), and the plan return
value is only the category map, with no aggregate counts attached. -/
theorem stats_not_counted_cex :
    (scan_photos
        [⟨"bad", ".jpg", .val ⟨[]⟩, .raised, ⟨2020, 1, 1, 0, 0, 0⟩⟩,
         ⟨"pic", ".jpg", .val ⟨[]⟩, .val ⟨false, []⟩, ⟨2021, 5, 5, 0, 0, 0⟩⟩]).2 = ["bad.jpg"] ∧
    sessionStats
        [⟨"bad", ".jpg", .val ⟨[]⟩, .raised, ⟨2020, 1, 1, 0, 0, 0⟩⟩,
         ⟨"pic", ".jpg", .val ⟨[]⟩, .val ⟨false, []⟩, ⟨2021, 5, 5, 0, 0, 0⟩⟩] .MONTHLY false =
      some ⟨1, 0, 0, 0, 0⟩ := by
  refine ⟨?_, ?_⟩ <;> decide

/-- C8 (amended): every per-file failure during the scan is caught, is
reported with the file's path, and does not abort the scan of the remaining
files; but no counter is incremented by it — any statistics object the
session holds has `errors = 0` and `skipped_files = 0` and records only the
number of categorized photos — and the plan return value carries no
aggregate counts. -/
theorem scan_error_handling :
    (∀ (pre post : List FileCtx) (f : FileCtx), eligible f = true → get_date f = .raised →
        scan_photos (pre ++ f :: post) =
          ((scan_photos pre).1 ++ (scan_photos post).1,
           (scan_photos pre).2 ++ FileCtx.name f :: (scan_photos post).2)) ∧
    (∀ (files : List FileCtx) (st : SortingType) (yp : Bool) (s : ProcessStats),
        sessionStats files st yp = some s →
        s.errors = 0 ∧ s.skipped_files = 0 ∧ s.total_photos = (scan_photos files).1.length) := by
  constructor
  · intro pre post f helig hraise
    simp only [eligible, Bool.and_eq_true, Bool.not_eq_true', decide_eq_true_eq] at helig
    obtain ⟨hh, hs⟩ := helig
    rw [scan_photos_append]
    have hf : scan_photos (f :: post) =
        ((scan_photos post).1, FileCtx.name f :: (scan_photos post).2) := by
      simp [scan_photos, hh, hs, hraise]
    rw [hf]
  · intro files st yp s hs
    simp only [sessionStats, process_organization] at hs
    by_cases hempty : (scan_photos files).1 = []
    · rw [if_pos hempty] at hs
      simp at hs
    · rw [if_neg hempty, Option.map_some', Option.some.injEq] at hs
      subst hs
      refine ⟨rfl, rfl, ?_⟩
      show (planFiles (organize_photos (scan_photos files).1 st yp)).length = _
      have := countP_planFiles_organize (scan_photos files).1 st yp (fun _ => true)
      simpa [List.countP_true] using this

/-- Witness for C8 (amended): a failing file between two good ones is
reported by path and both neighbours are still scanned. -/
theorem scan_error_handling_check :
    scan_photos
        ([⟨"pic", ".jpg", .val ⟨[]⟩, .val ⟨false, []⟩, ⟨2021, 5, 5, 0, 0, 0⟩⟩] ++
          ⟨"bad", ".jpg", .val ⟨[]⟩, .raised, ⟨2020, 1, 1, 0, 0, 0⟩⟩ ::
            [⟨"pic2", ".png", .raised, .raised, ⟨2022, 6, 6, 0, 0, 0⟩⟩]) =
      ((scan_photos [⟨"pic", ".jpg", .val ⟨[]⟩, .val ⟨false, []⟩, ⟨2021, 5, 5, 0, 0, 0⟩⟩]).1 ++
          (scan_photos [⟨"pic2", ".png", .raised, .raised, ⟨2022, 6, 6, 0, 0, 0⟩⟩]).1,
       (scan_photos [⟨"pic", ".jpg", .val ⟨[]⟩, .val ⟨false, []⟩, ⟨2021, 5, 5, 0, 0, 0⟩⟩]).2 ++
          FileCtx.name ⟨"bad", ".jpg", .val ⟨[]⟩, .raised, ⟨2020, 1, 1, 0, 0, 0⟩⟩ ::
            (scan_photos [⟨"pic2", ".png", .raised, .raised, ⟨2022, 6, 6, 0, 0, 0⟩⟩]).2) :=
  scan_error_handling.1
    [⟨"pic", ".jpg", .val ⟨[]⟩, .val ⟨false, []⟩, ⟨2021, 5, 5, 0, 0, 0⟩⟩]
    [⟨"pic2", ".png", .raised, .raised, ⟨2022, 6, 6, 0, 0, 0⟩⟩]
    ⟨"bad", ".jpg", .val ⟨[]⟩, .raised, ⟨2020, 1, 1, 0, 0, 0⟩⟩ (by decide) (by decide)
